import Mathlib

/-!
Verification of the gear-resolution and deduplicated-append pipeline of
`sync_garmin.py` (a Garmin-to-Google-Sheets batch sync script).

The script is shallowly embedded as follows.

* Python scalar values that can appear as activity identifiers and as
  spreadsheet cells are the type `Cell` (Python `None`, numbers, strings).
  Numbers are modelled as exact rationals; the int/str distinction is kept
  because the script mixes `str(activity_id)` with the raw id value.
* Upstream JSON-like payloads (activity detail, gear responses) are the
  type `Pay` (scalars, lists, dicts as association lists with unique keys).
* An upstream call that can raise is an `Except Unit Pay` value supplied by
  an `Env` (the environment stands for the authenticated `garmin` client).
* Python exceptions inside the per-activity loop are `Except PyErr`; the
  loop's `try/except` corresponds to matching on the result.
* The destination spreadsheet is a `List (List Cell)` of rows (header
  included).  `gspread.get_all_values` returns every cell as its displayed
  string, modelled by `readAll` which maps each cell to `Cell.str` of its
  string form.
-/

/-- Python exception kinds that the embedded code can raise. -/
inductive PyErr where
  | attributeError
  | typeError
  | valueError
deriving DecidableEq

/-- Scalar Python values used for activity identifiers and spreadsheet
cells.  `Cell.none` models both Python `None` and, at `dict.get` sites with
a default, the absent key. -/
inductive Cell where
  | none
  | num (q : ℚ)
  | str (s : String)
deriving DecidableEq

/-- JSON-like Python values returned by upstream gear/detail endpoints. -/
inductive Pay where
  | none
  | num (q : ℚ)
  | str (s : String)
  | list (xs : List Pay)
  | dict (kvs : List (String × Pay))

/-- Decimal rendering of a rational, matching Python `str` on ints (the only
values the script ever renders: activity ids are ints or digit strings). -/
def ratStr (q : ℚ) : String :=
  if q.den = 1 then toString q.num else toString q

/-- Python `str()` on a `Cell`. -/
def cellStr : Cell → String
  | Cell.none => "None"
  | Cell.num q => ratStr q
  | Cell.str s => s

/-- Python `str()` on a `Pay` scalar (list/dict renderings are never relied
on by the script: ids passed to `str` are numbers or strings). -/
def pyStrP : Pay → String
  | Pay.none => "None"
  | Pay.num q => ratStr q
  | Pay.str s => s
  | Pay.list _ => "[...]"
  | Pay.dict _ => "\x7b...\x7d"

/-- Python truthiness for `Cell`. -/
def truthyC : Cell → Bool
  | Cell.none => false
  | Cell.num q => q != 0
  | Cell.str s => s != ""

/-- Python truthiness for `Pay`. -/
def payTruthy : Pay → Bool
  | Pay.none => false
  | Pay.num q => q != 0
  | Pay.str s => s != ""
  | Pay.list xs => !xs.isEmpty
  | Pay.dict kvs => !kvs.isEmpty

/-- Python `a or b` (returns the first operand when truthy). -/
def pyOrP (a b : Pay) : Pay := if payTruthy a then a else b

/-- `d.get(k)` on an association list: value of the first matching key,
`None` when absent (Python dicts have unique keys). -/
def dgetD (kvs : List (String × Pay)) (k : String) : Pay :=
  match kvs.find? (fun kv => kv.1 == k) with
  | Option.some kv => kv.2
  | Option.none => Pay.none

/-- `d.get(k)` where `d` may not be a dict: tolerant variant returning
`None` on non-dicts (used only by the spec-modelled resolver, which
tolerates malformed payloads). -/
def dgetP (d : Pay) (k : String) : Pay :=
  match d with
  | Pay.dict kvs => dgetD kvs k
  | _ => Pay.none

/-- `g.get(k)` as the script executes it: raises `AttributeError` when `g`
is not a dict (e.g. a number or string inside a gear list). -/
def payGetE (g : Pay) (k : String) : Except PyErr Pay :=
  match g with
  | Pay.dict kvs => Except.ok (dgetD kvs k)
  | _ => Except.error PyErr.attributeError

/-- Digits of a decimal string, `Option.none` unless nonempty and all
ASCII digits. -/
def digitsToNat? (cs : List Char) : Option Nat :=
  if cs.isEmpty || !(cs.all Char.isDigit) then Option.none
  else Option.some (cs.foldl (fun n c => 10 * n + (c.toNat - 48)) 0)

/-- Python `int()` on a string: optional sign followed by digits
(whitespace/underscore tolerance of CPython is not modelled). -/
def pyStrToInt? (s : String) : Option Int :=
  match s.data with
  | '-' :: rest => (digitsToNat? rest).map (fun n => -(n : Int))
  | '+' :: rest => (digitsToNat? rest).map (fun n => (n : Int))
  | cs => (digitsToNat? cs).map (fun n => (n : Int))

/-- Python `int()` on a `Cell`: ints/floats truncate toward zero, numeric
strings parse, everything else raises (`Option.none`). -/
def pyIntC : Cell → Option Int
  | Cell.num q => Option.some (Int.tdiv q.num (q.den : Int))
  | Cell.str s => pyStrToInt? s
  | Cell.none => Option.none

/-- Python `for x in v`: lists yield elements, strings yield 1-character
strings, dicts yield their keys, scalars raise `TypeError`. -/
def iterItems : Pay → Except PyErr (List Pay)
  | Pay.list xs => Except.ok xs
  | Pay.str s => Except.ok (s.toList.map (fun c => Pay.str c.toString))
  | Pay.dict kvs => Except.ok (kvs.map (fun kv => Pay.str kv.1))
  | _ => Except.error PyErr.typeError

/-- `detail.keys()` as used at the debug print: raises unless a dict. -/
def keysE : Pay → Except PyErr (List String)
  | Pay.dict kvs => Except.ok (kvs.map (fun kv => kv.1))
  | _ => Except.error PyErr.attributeError

/-- Rounding a rational to the nearest integer (computable floor of
`q + 1/2`; ties at exact halves are modelled half-up, a point where binary
floats make Python `round` unspecifiable on exact rationals anyway). -/
def pyRound (q : ℚ) : ℤ := (2 * q.num + (q.den : ℤ)) / (2 * (q.den : ℤ))

/-- Rounding to 2 decimal places (`round(x, 2)`), on exact rationals. -/
def round2 (q : ℚ) : ℚ := (pyRound (q * 100) : ℚ) / 100

/-- Rounding to 1 decimal place (`round(x, 1)`), on exact rationals. -/
def round1 (q : ℚ) : ℚ := (pyRound (q * 10) : ℚ) / 10

/-- Falsiness of a numeric argument that may also be `None`/absent
(`Option.none` models Python `None`). -/
def falsyQ : Option ℚ → Bool
  | Option.none => true
  | Option.some q => q == 0

/-- `format_duration` (src line 17): seconds to minutes, 2 decimals, 0 on
falsy input. -/
def format_duration (seconds : ℚ) : ℚ :=
  if seconds = 0 then 0 else round2 (seconds / 60)

/-- `format_pace` (src line 21): min/km pace; 0 when either argument is
falsy (`None` or zero), guarding the division. -/
def format_pace (distance_meters duration_seconds : Option ℚ) : ℚ :=
  if falsyQ distance_meters || falsyQ duration_seconds then 0
  else
    let dm := distance_meters.getD 0
    let ds := duration_seconds.getD 0
    let distance_km := dm / 1000
    let pace_seconds := ds / distance_km
    round2 (pace_seconds / 60)

/-- ASCII lowercase of a character (Python `str.lower` restricted to the
ASCII range, which covers every type key the script compares). -/
def lowerChar (c : Char) : Char :=
  if 65 ≤ c.toNat ∧ c.toNat ≤ 90 then Char.ofNat (c.toNat + 32) else c

/-- ASCII `str.lower()`. -/
def asciiLower (s : String) : String := String.mk (s.data.map lowerChar)

/-- Python slicing `s[:n]` on an ASCII string. -/
def strTake (s : String) (n : Nat) : String := String.mk (s.data.take n)

/-- `", ".join(xs)`. -/
def joinComma : List String → String
  | [] => ""
  | [x] => x
  | x :: xs => x ++ ", " ++ joinComma xs

/-- One fetched activity.  Fields mirror the keys the script reads.
`activityId` is kept as a raw `Cell` because the script mixes the raw value
with its `str()` form; numeric metric fields are typed as rationals (the
`.get(key, 0) or 0` call sites make them 0 when absent or falsy, which the
field value 0 represents directly); `typeKey` is the value of
`activityType.typeKey` (`""` when absent). -/
structure Activity where
  activityId : Cell
  startTimeLocal : String
  activityName : String
  distance : ℚ
  duration : ℚ
  averageHR : ℚ
  maxHR : ℚ
  calories : ℚ
  averageRunningCadenceInStepsPerMinute : ℚ
  elevationGain : ℚ
  typeKey : String
deriving DecidableEq

/-- The running filter (src lines 217-220):
`activity.get('activityType', \x7b\x7d).get('typeKey', '').lower() in [...]`. -/
def is_running (activity : Activity) : Bool :=
  ["running", "track_running", "treadmill_running", "trail_running"].contains
    (asciiLower activity.typeKey)

/-- Sample activity used by concrete witnesses: a plausible 5 km run. -/
def mkAct (id : Cell) (ty : String) : Activity :=
  { activityId := id
    startTimeLocal := "2024-05-01T06:30:00"
    activityName := "Morning Run"
    distance := 5000
    duration := 1500
    averageHR := 150
    maxHR := 180
    calories := 400
    averageRunningCadenceInStepsPerMinute := 170
    elevationGain := 12
    typeKey := ty }

/-- `pyRound` is the identity on integers. -/
lemma pyRound_intCast (m : ℤ) : pyRound (m : ℚ) = m := by
  simp only [pyRound, Rat.num_intCast, Rat.den_intCast, Nat.cast_one, mul_one]
  omega

/-- `round2` is the identity on integers. -/
lemma round2_intCast (m : ℤ) : round2 (m : ℚ) = m := by
  rw [round2, show ((m : ℚ) * 100) = ((m * 100 : ℤ) : ℚ) by push_cast; ring,
    pyRound_intCast]
  push_cast
  field_simp

example : format_pace (Option.some 5000) (Option.some 1500) = 5 := by
  rw [format_pace]
  norm_num [falsyQ]
  rw [show (5 : ℚ) = ((5 : ℤ) : ℚ) by norm_num, round2_intCast]
example : is_running (mkAct (Cell.num 1) "Trail_Running") = true := by decide
example : is_running (mkAct (Cell.num 1) "cycling") = false := by decide
example : pyIntC (Cell.num 7) = Option.some 7 := by decide

/-- `gear_items` extraction of `get_shoes_for_activity` (src lines 62-66):
the payload itself when a list, else the `gear`/`gearList`/`gears` chain on
a dict (first truthy value, `[]` fallback), else the initial `[]`. -/
def gearItemsOf (ag : Pay) : Pay :=
  match ag with
  | Pay.list xs => Pay.list xs
  | Pay.dict kvs =>
      pyOrP (dgetD kvs "gear") (pyOrP (dgetD kvs "gearList")
        (pyOrP (dgetD kvs "gears") (Pay.list [])))
  | _ => Pay.list []

/-- `str(g.get("gearId") or g.get("id") or "")` (src line 71), with
Python's short-circuit evaluation; raises when `g` has no `.get`. -/
def shoeItemId (g : Pay) : Except PyErr String :=
  match payGetE g "gearId" with
  | Except.error e => Except.error e
  | Except.ok v1 =>
      if payTruthy v1 then Except.ok (pyStrP v1)
      else
        match payGetE g "id" with
        | Except.error e => Except.error e
        | Except.ok v2 => Except.ok (if payTruthy v2 then pyStrP v2 else "")

/-- `gear_map.get(gid, "")`. -/
def gearMapGet (gear_map : List (String × String)) (gid : String) : String :=
  match gear_map.find? (fun kv => kv.1 == gid) with
  | Option.some kv => kv.2
  | Option.none => ""

/-- The accumulation loop of `get_shoes_for_activity` (src lines 68-75),
carried over `(gear_ids, shoe_names)`. -/
def shoeLoop (gear_map : List (String × String)) :
    List Pay → List String × List String → Except PyErr (List String × List String)
  | [], acc => Except.ok acc
  | g :: gs, acc =>
      match shoeItemId g with
      | Except.error e => Except.error e
      | Except.ok gid =>
          if gid = "" then shoeLoop gear_map gs acc
          else shoeLoop gear_map gs (acc.1 ++ [gid], acc.2 ++ [gearMapGet gear_map gid])

/-- `get_shoes_for_activity` (src lines 50-82).  The upstream call
`garmin.get_activity_gear(activity_id)` is passed in as its outcome `ag`;
the function's own `try/except` catches only that call.  Returns the
`(shoe_names_csv, shoe_ids_csv)` pair, or the Python exception the loop
raises on a malformed gear item. -/
def get_shoes_for_activity (ag : Except Unit Pay) (gear_map : List (String × String)) :
    Except PyErr (String × String) :=
  match ag with
  | Except.error _ => Except.ok ("", "")
  | Except.ok ag =>
      match iterItems (gearItemsOf ag) with
      | Except.error e => Except.error e
      | Except.ok items =>
          match shoeLoop gear_map items ([], []) with
          | Except.error e => Except.error e
          | Except.ok (gear_ids, shoe_names) =>
              Except.ok (joinComma (shoe_names.filter (fun n => n != "")), joinComma gear_ids)

/-- Modelled from the spec: `get_activity_detail_for_gear` is called at src
line 292 but defined only in other revisions of this repository.  Per spec
4.2 step 1, it probes an ordered list of candidate detail endpoints,
catching every invocation failure, and "if no candidate exists or all
throw, the detail payload is treated as empty".  The probing outcome is
supplied as `resp`; failure of every candidate yields the empty dict. -/
def get_activity_detail_for_gear (resp : Except Unit Pay) : Pay :=
  match resp with
  | Except.ok v => v
  | Except.error _ => Pay.dict []

/-- Modelled from the spec: ordered key names under which a gear list is
searched in the detail payload (spec 4.2 step 2a). -/
def gearListKeys : List String :=
  ["gear", "activityGearDTOs", "activityGear", "gears", "activityGearList"]

/-- Modelled from the spec: known name fields of a gear object (spec 4.2
step 2b; the fields exercised by the spec's own examples plus the
`customMakeModel` alias the repository uses for gear names). -/
def gearNameKeys : List String := ["displayName", "name", "customMakeModel"]

/-- Modelled from the spec: known id fields of a gear object. -/
def gearIdKeys : List String := ["gearId", "id"]

/-- First truthy value among the given keys of a gear object, `None` when
all are absent or falsy. -/
def firstTruthyField (g : Pay) : List String → Pay
  | [] => Pay.none
  | k :: ks => if payTruthy (dgetP g k) then dgetP g k else firstTruthyField g ks

/-- Modelled from the spec: the first of `gearListKeys` whose value in the
payload is a non-empty list (spec 4.2 step 2a/2b). -/
def findGearList (d : Pay) : Option (List Pay) :=
  gearListKeys.findSome? (fun k =>
    match dgetP d k with
    | Pay.list (g :: gs) => Option.some (g :: gs)
    | _ => Option.none)

/-- String coercion of a field value, empty string when absent/falsy. -/
def fieldStr (v : Pay) : String := if payTruthy v then pyStrP v else ""

/-- Modelled from the spec: `extract_shoe_from_detail` is called at src
line 297 but defined only in other revisions of this repository.  Per spec
4.2 step 2: take the first element of the first non-empty gear list found
under a known key and extract a name (first non-empty of the known name
fields) and an id, coercing to string; if no list field matches, fall back
to the flat `gearName`/`gearId` summary fields; else `("", "")`. -/
def extract_shoe_from_detail (d : Pay) : String × String :=
  match findGearList d with
  | Option.some (g :: _) =>
      (fieldStr (firstTruthyField g gearNameKeys), fieldStr (firstTruthyField g gearIdKeys))
  | _ => (fieldStr (dgetP d "gearName"), fieldStr (dgetP d "gearId"))

example : extract_shoe_from_detail (Pay.dict [("gear",
    Pay.list [Pay.dict [("displayName", Pay.str "Shoe A"), ("gearId", Pay.num 42)]])])
    = ("Shoe A", "42") := by decide
example : extract_shoe_from_detail (Pay.dict [("activityGear",
    Pay.list [Pay.dict [("name", Pay.str "Shoe B"), ("id", Pay.num 7)]])])
    = ("Shoe B", "7") := by decide
example : extract_shoe_from_detail (Pay.dict []) = ("", "") := by decide
example : get_shoes_for_activity (Except.ok (Pay.dict [("gear", Pay.list [Pay.num 1])])) []
    = Except.error PyErr.attributeError := rfl
example : get_shoes_for_activity (Except.error ()) [] = Except.ok ("", "") := rfl

/-- The authenticated upstream client, reduced to the outcomes of the two
calls the per-activity loop makes, plus the gear map built at startup:
`gearResp n` is `garmin.get_activity_gear(n)` and `detailResp id` the
probing outcome consumed by `get_activity_detail_for_gear`. -/
structure Env where
  gearResp : Int → Except Unit Pay
  detailResp : Cell → Except Unit Pay
  gearMap : List (String × String)

/-- `str(activity.get('activityId', ''))` (src line 263): the default `''`
when the key is absent (`Cell.none`), else Python `str`. -/
def strOfGetC : Cell → String
  | Cell.none => ""
  | c => cellStr c

/-- The string form of an activity's id, the value dedup checks compare. -/
def aidStr (a : Activity) : String := strOfGetC a.activityId

/-- The 14-column output row (src lines 301-316), in source order.
`avg_hr`/`max_hr`/`calories`/`avg_cadence` are `.get(key, 0) or 0`, which
the rational field value represents directly (`0 or 0` is `0`). -/
def rowFields (a : Activity) (shoe_name shoe_id : String) : List Cell :=
  [a.activityId,
   Cell.str (strTake a.startTimeLocal 10),
   Cell.str a.activityName,
   Cell.num (if a.distance = 0 then 0 else round2 (a.distance / 1000)),
   Cell.num (format_duration a.duration),
   Cell.num (format_pace (Option.some a.distance) (Option.some a.duration)),
   Cell.num a.averageHR,
   Cell.num a.maxHR,
   Cell.num a.calories,
   Cell.num a.averageRunningCadenceInStepsPerMinute,
   Cell.num (if a.elevationGain = 0 then 0 else round1 a.elevationGain),
   Cell.str a.typeKey,
   Cell.str shoe_name,
   Cell.str shoe_id]

/-- The fallible part of the loop body (src lines 273-316): everything the
surrounding `try` can see fail after the dedup check — `int(activity_id)`
(line 290), the gear call inside `get_shoes_for_activity` whose pair is
then overwritten (line 297), the `detail.keys()` debug access (line 295) —
ending in the fully built row. -/
def bodyE (env : Env) (a : Activity) : Except PyErr (List Cell) :=
  match pyIntC a.activityId with
  | Option.none => Except.error PyErr.valueError
  | Option.some n =>
      match get_shoes_for_activity (env.gearResp n) env.gearMap with
      | Except.error e => Except.error e
      | Except.ok _ =>
          match keysE (get_activity_detail_for_gear (env.detailResp a.activityId)) with
          | Except.error e => Except.error e
          | Except.ok _ =>
              match extract_shoe_from_detail
                  (get_activity_detail_for_gear (env.detailResp a.activityId)) with
              | (shoe_name, shoe_id) => Except.ok (rowFields a shoe_name shoe_id)

/-- The mutable state of the append loop: sheet contents, the in-memory
`existing_activity_ids` set (as a list of raw `Cell` values, matching the
mix of seeded strings and raw ids the script inserts), and `new_entries`. -/
structure SyncState where
  store : List (List Cell)
  known : List Cell
  newEntries : Nat

/-- One iteration of the per-activity loop (src lines 261-325): skip on a
missing id (line 264) or a known id string (line 269); otherwise run the
fallible body; on success append the row, bump the count and insert the
RAW id value (line 321); any exception is caught and the activity skipped
(line 323). -/
def processActivity (env : Env) (st : SyncState) (a : Activity) : SyncState :=
  if aidStr a = "" then st
  else if Cell.str (aidStr a) ∈ st.known then st
  else
    match bodyE env a with
    | Except.ok row =>
        { store := st.store ++ [row], known := st.known ++ [a.activityId],
          newEntries := st.newEntries + 1 }
    | Except.error _ => st

/-- `sheet.get_all_values()`: gspread returns every cell as its displayed
string. -/
def readAll (store : List (List Cell)) : List (List Cell) :=
  store.map (fun r => r.map (fun c => Cell.str (cellStr c)))

/-- Seeding of `existing_activity_ids` (src lines 248-253): column 1 of
every row after the header, when truthy. -/
def seedIds (data : List (List Cell)) : List Cell :=
  if 1 < data.length then
    (data.drop 1).filterMap (fun r =>
      match r with
      | [] => Option.none
      | c :: _ => if truthyC c then Option.some c else Option.none)
  else []

/-- Result of one run: final sheet contents, the reported new-entry count,
and whether the run reached the Google-Sheets phase at all (connection,
read and appends all happen after the early return at src line 226). -/
structure RunResult where
  store : List (List Cell)
  newEntries : Nat
  sheetAccessed : Bool

/-- The sheet phase of `main` (src lines 216-331): filter to running
types, return before touching the sheet when none remain, seed the
known-id set from the sheet — a read failure is caught at line 255 and
leaves the set empty — then fold the per-activity loop.
`storeReadOk` is the outcome of `sheet.get_all_values()`. -/
def runSync (env : Env) (activities : List Activity) (storeReadOk : Bool)
    (store0 : List (List Cell)) : RunResult :=
  let running_activities := activities.filter is_running
  if running_activities.isEmpty then { store := store0, newEntries := 0, sheetAccessed := false }
  else
    let existing_activity_ids := if storeReadOk then seedIds (readAll store0) else []
    let fin := List.foldl (processActivity env)
      { store := store0, known := existing_activity_ids, newEntries := 0 } running_activities
    { store := fin.store, newEntries := fin.newEntries, sheetAccessed := true }

/-- Environment whose upstream gear and detail calls all throw. -/
def env0 : Env :=
  { gearResp := fun _ => Except.error ()
    detailResp := fun _ => Except.error ()
    gearMap := [] }

/-- A header-only sheet. -/
def hdr0 : List (List Cell) := [[Cell.str "activity_id"]]

example : bodyE env0 (mkAct (Cell.num 7) "running") =
    Except.ok (rowFields (mkAct (Cell.num 7) "running") "" "") := rfl
example : (runSync env0 [mkAct (Cell.num 7) "running", mkAct (Cell.num 7) "running"]
    true hdr0).newEntries = 2 := rfl
example : (runSync env0 [mkAct (Cell.num 7) "running"] true
    [[Cell.str "activity_id"], [Cell.str "7"]]).newEntries = 0 := rfl

/-- Whether an `Except` result is a success. -/
def isOkE : Except PyErr (List Cell) → Bool
  | Except.ok _ => true
  | Except.error _ => false

/-- The row the body produces on success (junk on failure; used only under
an `isOkE` hypothesis). -/
def okRow (env : Env) (a : Activity) : List Cell :=
  match bodyE env a with
  | Except.ok r => r
  | Except.error _ => []

/-- The string-valued members of the known-id set: the only elements a
dedup lookup of `str(activity_id)` can ever hit. -/
def strEntries (k : List Cell) : List String :=
  k.filterMap (fun c =>
    match c with
    | Cell.str s => Option.some s
    | _ => Option.none)

/-- Column 1 of a sheet, rendered as strings. -/
def col1Strs (store : List (List Cell)) : List String :=
  store.filterMap (fun r => r.head?.map cellStr)

lemma mem_strEntries {s : String} {k : List Cell} :
    Cell.str s ∈ k ↔ s ∈ strEntries k := by
  constructor
  · intro h
    exact List.mem_filterMap.mpr ⟨Cell.str s, h, rfl⟩
  · intro h
    rcases List.mem_filterMap.mp h with ⟨c, hc, he⟩
    cases c with
    | str t => simp only [Option.some.injEq] at he; subst he; exact hc
    | none => simp at he
    | num q => simp at he

lemma strEntries_append (k l : List Cell) :
    strEntries (k ++ l) = strEntries k ++ strEntries l :=
  List.filterMap_append ..

lemma col1Strs_append (s t : List (List Cell)) :
    col1Strs (s ++ t) = col1Strs s ++ col1Strs t :=
  List.filterMap_append ..

lemma strEntries_id_sub (a : Activity) : strEntries [a.activityId] ⊆ [aidStr a] := by
  cases h : a.activityId <;> simp [strEntries, aidStr, strOfGetC, h, cellStr]

lemma cellStr_eq_aidStr (a : Activity) (h : aidStr a ≠ "") :
    cellStr a.activityId = aidStr a := by
  cases hid : a.activityId
  · exact absurd (by rw [aidStr, hid]; rfl) h
  · rw [aidStr, hid]; rfl
  · rw [aidStr, hid]; rfl

lemma bodyE_shape (env : Env) (a : Activity) (row : List Cell)
    (h : bodyE env a = Except.ok row) : ∃ sn si, row = rowFields a sn si := by
  unfold bodyE at h
  split at h
  · exact absurd h (by simp)
  · split at h
    · exact absurd h (by simp)
    · split at h
      · exact absurd h (by simp)
      · split at h
        rename_i sn si _
        exact ⟨sn, si, (by injection h with h; exact h.symm)⟩

lemma okRow_shape (env : Env) (a : Activity) (hok : isOkE (bodyE env a) = true) :
    ∃ sn si, okRow env a = rowFields a sn si := by
  unfold okRow
  cases hb : bodyE env a with
  | ok r => exact bodyE_shape env a r hb
  | error e => rw [hb] at hok; simp [isOkE] at hok

lemma processActivity_skip (env : Env) (st : SyncState) (a : Activity)
    (h : aidStr a = "" ∨ Cell.str (aidStr a) ∈ st.known) :
    processActivity env st a = st := by
  unfold processActivity
  rcases h with h | h
  · rw [if_pos h]
  · by_cases h0 : aidStr a = ""
    · rw [if_pos h0]
    · rw [if_neg h0, if_pos h]

lemma fold_skip (env : Env) :
    ∀ (acts : List Activity) (st : SyncState),
      (∀ a ∈ acts, aidStr a = "" ∨ Cell.str (aidStr a) ∈ st.known) →
      List.foldl (processActivity env) st acts = st
  | [], st, _ => rfl
  | a :: rest, st, h => by
      rw [List.foldl_cons, processActivity_skip env st a (h a (List.mem_cons_self a rest))]
      exact fold_skip env rest st (fun b hb => h b (List.mem_cons_of_mem a hb))

lemma processActivity_append (env : Env) (st : SyncState) (a : Activity) (row : List Cell)
    (h0 : aidStr a ≠ "") (h1 : Cell.str (aidStr a) ∉ st.known)
    (h2 : bodyE env a = Except.ok row) :
    processActivity env st a =
      { store := st.store ++ [row], known := st.known ++ [a.activityId],
        newEntries := st.newEntries + 1 } := by
  unfold processActivity
  rw [if_neg h0, if_neg h1, h2]

lemma fold_append_all (env : Env) :
    ∀ (acts : List Activity) (s : List (List Cell)) (k : List Cell) (n : Nat),
      (List.map aidStr acts).Nodup →
      (∀ a ∈ acts, aidStr a ≠ "" ∧ isOkE (bodyE env a) = true ∧ aidStr a ∉ strEntries k) →
      List.foldl (processActivity env) { store := s, known := k, newEntries := n } acts =
        { store := s ++ acts.map (okRow env),
          known := k ++ acts.map (fun a => a.activityId),
          newEntries := n + acts.length }
  | [], s, k, n, _, _ => by simp
  | a :: rest, s, k, n, hnd, hp => by
      obtain ⟨h0, hok, hnew⟩ := hp a (List.mem_cons_self a rest)
      obtain ⟨row, hrow⟩ : ∃ r, bodyE env a = Except.ok r := by
        cases hb : bodyE env a with
        | ok r => exact ⟨r, rfl⟩
        | error e => rw [hb] at hok; simp [isOkE] at hok
      rw [List.map_cons, List.nodup_cons] at hnd
      have hstep := processActivity_append env
        { store := s, known := k, newEntries := n } a row h0
        (fun hmem => hnew (mem_strEntries.mp hmem)) hrow
      rw [List.foldl_cons, hstep,
        fold_append_all env rest (s ++ [row]) (k ++ [a.activityId]) (n + 1) hnd.2 ?_]
      · have hro : okRow env a = row := by rw [okRow, hrow]
        simp [hro, List.append_assoc]
        omega
      · intro b hb
        obtain ⟨hb0, hbok, hbnew⟩ := hp b (List.mem_cons_of_mem a hb)
        refine ⟨hb0, hbok, ?_⟩
        rw [strEntries_append]
        intro hmem
        rcases List.mem_append.mp hmem with h | h
        · exact hbnew h
        · have := strEntries_id_sub a h
          simp only [List.mem_singleton] at this
          exact hnd.1 (this ▸ List.mem_map_of_mem aidStr hb)

/-- What one run appends: rows, final known-id set and entry count, as a
function of the activities and the initial known-id set alone (the loop
never reads the sheet contents back). -/
structure AppOut where
  rows : List (List Cell)
  known : List Cell
  count : Nat

/-- The append loop in accumulator-free form, mirroring the branch
structure of `processActivity`. -/
def foldApp (env : Env) : List Activity → List Cell → AppOut
  | [], k => { rows := [], known := k, count := 0 }
  | a :: rest, k =>
      if aidStr a = "" then foldApp env rest k
      else if Cell.str (aidStr a) ∈ k then foldApp env rest k
      else
        match bodyE env a with
        | Except.ok row =>
            { rows := row :: (foldApp env rest (k ++ [a.activityId])).rows,
              known := (foldApp env rest (k ++ [a.activityId])).known,
              count := (foldApp env rest (k ++ [a.activityId])).count + 1 }
        | Except.error _ => foldApp env rest k

lemma foldApp_cons (env : Env) (a : Activity) (rest : List Activity) (k : List Cell) :
    foldApp env (a :: rest) k =
      if aidStr a = "" then foldApp env rest k
      else if Cell.str (aidStr a) ∈ k then foldApp env rest k
      else
        match bodyE env a with
        | Except.ok row =>
            { rows := row :: (foldApp env rest (k ++ [a.activityId])).rows,
              known := (foldApp env rest (k ++ [a.activityId])).known,
              count := (foldApp env rest (k ++ [a.activityId])).count + 1 }
        | Except.error _ => foldApp env rest k := rfl

lemma processActivity_err (env : Env) (st : SyncState) (a : Activity) (e : PyErr)
    (h0 : aidStr a ≠ "") (h1 : Cell.str (aidStr a) ∉ st.known)
    (hb : bodyE env a = Except.error e) :
    processActivity env st a = st := by
  unfold processActivity
  rw [if_neg h0, if_neg h1, hb]

lemma fold_decomp (env : Env) :
    ∀ (acts : List Activity) (s : List (List Cell)) (k : List Cell) (n : Nat),
      List.foldl (processActivity env) { store := s, known := k, newEntries := n } acts =
        { store := s ++ (foldApp env acts k).rows,
          known := (foldApp env acts k).known,
          newEntries := n + (foldApp env acts k).count }
  | [], s, k, n => by simp [foldApp]
  | a :: rest, s, k, n => by
      rw [List.foldl_cons, foldApp_cons]
      by_cases h0 : aidStr a = ""
      · rw [processActivity_skip env _ a (Or.inl h0), fold_decomp env rest s k n, if_pos h0]
      · by_cases h1 : Cell.str (aidStr a) ∈ k
        · rw [processActivity_skip env _ a (Or.inr h1), fold_decomp env rest s k n,
            if_neg h0, if_pos h1]
        · cases hb : bodyE env a with
          | ok row =>
              rw [processActivity_append env _ a row h0 h1 hb,
                fold_decomp env rest (s ++ [row]) (k ++ [a.activityId]) (n + 1),
                if_neg h0, if_neg h1]
              simp only [SyncState.mk.injEq, List.append_assoc, List.singleton_append]
              exact ⟨trivial, trivial, by omega⟩
          | error e =>
              rw [processActivity_err env _ a e h0 h1 hb, fold_decomp env rest s k n,
                if_neg h0, if_neg h1]

lemma foldApp_rows_shape (env : Env) :
    ∀ (acts : List Activity) (k : List Cell) (row : List Cell),
      row ∈ (foldApp env acts k).rows →
      ∃ a, a ∈ acts ∧ ∃ sn si, row = rowFields a sn si
  | [], k, row, h => by simp [foldApp] at h
  | a :: rest, k, row, h => by
      rw [foldApp_cons] at h
      by_cases h0 : aidStr a = ""
      · rw [if_pos h0] at h
        obtain ⟨b, hb, hs⟩ := foldApp_rows_shape env rest k row h
        exact ⟨b, List.mem_cons_of_mem a hb, hs⟩
      · rw [if_neg h0] at h
        by_cases h1 : Cell.str (aidStr a) ∈ k
        · rw [if_pos h1] at h
          obtain ⟨b, hb, hs⟩ := foldApp_rows_shape env rest k row h
          exact ⟨b, List.mem_cons_of_mem a hb, hs⟩
        · rw [if_neg h1] at h
          cases hb : bodyE env a with
          | ok r =>
              rw [hb] at h
              rcases List.mem_cons.mp h with h | h
              · subst h
                exact ⟨a, List.mem_cons_self a rest, bodyE_shape env a row hb⟩
              · obtain ⟨b, hbm, hs⟩ :=
                  foldApp_rows_shape env rest (k ++ [a.activityId]) row h
                exact ⟨b, List.mem_cons_of_mem a hbm, hs⟩
          | error e =>
              rw [hb] at h
              obtain ⟨b, hbm, hs⟩ := foldApp_rows_shape env rest k row h
              exact ⟨b, List.mem_cons_of_mem a hbm, hs⟩

lemma mem_seedIds_elim {data : List (List Cell)} {c : Cell} (h : c ∈ seedIds data) :
    ∃ r ∈ data, r.head? = Option.some c := by
  unfold seedIds at h
  by_cases hlen : 1 < data.length
  · rw [if_pos hlen] at h
    rcases List.mem_filterMap.mp h with ⟨r, hr, hre⟩
    refine ⟨r, List.mem_of_mem_drop hr, ?_⟩
    cases r with
    | nil => simp at hre
    | cons c0 rt =>
        have hre2 : (if truthyC c0 = true then Option.some c0 else Option.none)
            = Option.some c := hre
        by_cases ht : truthyC c0 = true
        · rw [if_pos ht] at hre2
          injection hre2 with h2
          rw [h2]
          rfl
        · rw [if_neg ht] at hre2
          simp at hre2
  · rw [if_neg hlen] at h
    simp at h

lemma mem_seedIds_intro {data : List (List Cell)} {r : List Cell} {c : Cell}
    (hlen : 1 < data.length) (hr : r ∈ data.drop 1) (hc : r.head? = Option.some c)
    (ht : truthyC c = true) : c ∈ seedIds data := by
  unfold seedIds
  rw [if_pos hlen]
  refine List.mem_filterMap.mpr ⟨r, hr, ?_⟩
  cases r with
  | nil => simp at hc
  | cons c0 rt =>
      have hc0 : c0 = c := by injection hc
      subst hc0
      show (if truthyC c0 = true then Option.some c0 else Option.none) = Option.some c0
      rw [if_pos ht]

lemma strEntries_seed_sub (store : List (List Cell)) :
    strEntries (seedIds (readAll store)) ⊆ col1Strs store := by
  intro s hs
  rcases mem_seedIds_elim (mem_strEntries.mpr hs) with ⟨r, hr, hre⟩
  rcases List.mem_map.mp hr with ⟨r0, hr0, hr0e⟩
  cases r0 with
  | nil =>
      subst hr0e
      simp at hre
  | cons d0 dt =>
      subst hr0e
      have hd : Cell.str (cellStr d0) = Cell.str s := by
        simp only [List.map_cons, List.head?_cons, Option.some.injEq] at hre
        exact hre
      have hds : cellStr d0 = s := by injection hd
      exact List.mem_filterMap.mpr ⟨d0 :: dt, hr0, by simp [hds]⟩

/-- A sample running activity with the integer id 7. -/
def actR : Activity := mkAct (Cell.num 7) "running"

/-- C7: `pace_min_per_km` returns 0 when either input is falsy (zero, null,
absent); otherwise it returns `(duration_s / (distance_m/1000)) / 60`
rounded to 2 decimal places, with the divisor `distance_m/1000` provably
nonzero (no division by zero); and `pace_min_per_km(5000, 1500) = 5.0`. -/
theorem pace_guard_and_formula :
    (∀ d s : Option ℚ, (falsyQ d || falsyQ s) = true → format_pace d s = 0)
    ∧ (∀ d s : Option ℚ, falsyQ d = false → falsyQ s = false →
        format_pace d s = round2 (s.getD 0 / (d.getD 0 / 1000) / 60) ∧ d.getD 0 / 1000 ≠ 0)
    ∧ format_pace (Option.some 5000) (Option.some 1500) = 5 := by
  refine ⟨fun d s h => ?_, fun d s hd hs => ?_, ?_⟩
  · rw [format_pace, if_pos h]
  · constructor
    · rw [format_pace, if_neg (by rw [hd, hs]; simp)]
    · rcases d with _ | q
      · exact absurd hd (by simp [falsyQ])
      · have hq : q ≠ 0 := by
          intro hq0
          rw [falsyQ, hq0] at hd
          simp at hd
        simpa using div_ne_zero hq (by norm_num : (1000 : ℚ) ≠ 0)
  · rw [format_pace]
    norm_num [falsyQ]
    rw [show (5 : ℚ) = ((5 : ℤ) : ℚ) by norm_num, round2_intCast]

/-- C7 witness: the theorem applied at `(None, 10)` for the falsy guard and
at `(5000, 1500)` for the formula and nonzero-divisor clause. -/
theorem pace_guard_and_formula_witness :
    format_pace Option.none (Option.some 10) = 0
    ∧ (format_pace (Option.some 5000) (Option.some 1500)
        = round2 ((Option.some (1500 : ℚ)).getD 0
            / ((Option.some (5000 : ℚ)).getD 0 / 1000) / 60)
       ∧ (Option.some (5000 : ℚ)).getD 0 / 1000 ≠ 0) :=
  ⟨pace_guard_and_formula.1 Option.none (Option.some 10) (by decide),
   pace_guard_and_formula.2.1 (Option.some 5000) (Option.some 1500) (by decide) (by decide)⟩

/-- C8: the running filter accepts an activity iff its type tag, lowered,
is in the fixed four-element allow-list; `"Trail_Running"` passes and
`"cycling"` does not. -/
theorem running_filter_allowlist :
    (∀ a : Activity, is_running a = true ↔
      asciiLower a.typeKey ∈ ["running", "track_running", "treadmill_running", "trail_running"])
    ∧ is_running (mkAct (Cell.num 1) "Trail_Running") = true
    ∧ is_running (mkAct (Cell.num 2) "cycling") = false := by
  refine ⟨fun a => ?_, by decide, by decide⟩
  rw [is_running]
  exact List.elem_iff

/-- C8 witness: the filter accepts a mixed-case trail-running tag via the
allow-list characterisation. -/
theorem running_filter_allowlist_witness :
    is_running (mkAct (Cell.num 3) "TRAIL_running") = true :=
  (running_filter_allowlist.1 (mkAct (Cell.num 3) "TRAIL_running")).mpr (by decide)

/-- C4: when the detail payload holds a non-empty gear list under a known
key, the resolver takes the first element and returns its name (first
non-empty of the known name fields) and its id coerced to string; the
spec's example payload resolves to `("Shoe A", "42")`. -/
theorem gear_extract_first_element :
    (∀ (d g : Pay) (gs : List Pay), findGearList d = Option.some (g :: gs) →
      extract_shoe_from_detail d =
        (fieldStr (firstTruthyField g gearNameKeys), fieldStr (firstTruthyField g gearIdKeys)))
    ∧ extract_shoe_from_detail (Pay.dict [("gear",
        Pay.list [Pay.dict [("displayName", Pay.str "Shoe A"), ("gearId", Pay.num 42)]])])
      = ("Shoe A", "42") := by
  refine ⟨fun d g gs h => ?_, by decide⟩
  rw [extract_shoe_from_detail, h]

/-- C4 witness: the theorem applied to the spec's second example payload,
whose gear list sits under `activityGear`. -/
theorem gear_extract_first_element_witness :
    findGearList (Pay.dict [("activityGear",
        Pay.list [Pay.dict [("name", Pay.str "Shoe B"), ("id", Pay.num 7)]])])
      = Option.some [Pay.dict [("name", Pay.str "Shoe B"), ("id", Pay.num 7)]]
    ∧ extract_shoe_from_detail (Pay.dict [("activityGear",
        Pay.list [Pay.dict [("name", Pay.str "Shoe B"), ("id", Pay.num 7)]])])
      = (fieldStr (firstTruthyField (Pay.dict [("name", Pay.str "Shoe B"), ("id", Pay.num 7)])
            gearNameKeys),
         fieldStr (firstTruthyField (Pay.dict [("name", Pay.str "Shoe B"), ("id", Pay.num 7)])
            gearIdKeys)) :=
  ⟨rfl, gear_extract_first_element.1 _ _ [] rfl⟩

/-- C5 counterexample: `get_shoes_for_activity` DOES raise to its caller
when the upstream call succeeds with a gear list containing a non-dict
element — `g.get("gearId")` on the number 1 is an `AttributeError` that
the function does not catch (its `try` covers only the upstream call). -/
theorem shoes_resolver_raises :
    get_shoes_for_activity (Except.ok (Pay.dict [("gear", Pay.list [Pay.num 1])])) []
      = Except.error PyErr.attributeError := rfl

/-- Whether a payload is a Python dict. -/
def isDictP : Pay → Bool
  | Pay.dict _ => true
  | _ => false

lemma shoeItemId_dict (kvs : List (String × Pay)) :
    ∃ gid, shoeItemId (Pay.dict kvs) = Except.ok gid := by
  by_cases h1 : payTruthy (dgetD kvs "gearId") = true
  · exact ⟨pyStrP (dgetD kvs "gearId"),
      by simp only [shoeItemId, payGetE]; rw [if_pos h1]⟩
  · refine ⟨if payTruthy (dgetD kvs "id") then pyStrP (dgetD kvs "id") else "", ?_⟩
    simp only [shoeItemId, payGetE]
    rw [if_neg h1]

lemma shoeLoop_ok (gm : List (String × String)) :
    ∀ (xs : List Pay) (acc : List String × List String),
      (∀ x ∈ xs, isDictP x = true) →
      ∃ r, shoeLoop gm xs acc = Except.ok r
  | [], acc, _ => ⟨acc, rfl⟩
  | g :: gs, acc, h => by
      have hg := h g (List.mem_cons_self g gs)
      obtain ⟨kvs, hkvs⟩ : ∃ kvs, g = Pay.dict kvs := by
        cases g <;> simp [isDictP] at hg ⊢
      subst hkvs
      obtain ⟨gid, hgid⟩ := shoeItemId_dict kvs
      have htail := fun acc2 =>
        shoeLoop_ok gm gs acc2 (fun x hx => h x (List.mem_cons_of_mem _ hx))
      rw [shoeLoop, hgid]
      show ∃ r, (if gid = "" then shoeLoop gm gs acc
        else shoeLoop gm gs (acc.1 ++ [gid], acc.2 ++ [gearMapGet gm gid])) = Except.ok r
      by_cases hz : gid = ""
      · rw [if_pos hz]
        exact htail acc
      · rw [if_neg hz]
        exact htail (acc.1 ++ [gid], acc.2 ++ [gearMapGet gm gid])

/-- C5 amended: `get_shoes_for_activity` returns `("", "")` whenever the
upstream call throws or no gear item survives extraction, and returns a
string pair without raising whenever every element of the extracted gear
items is a dict; the unqualified never-raises contract fails (see the
counterexample) only on a gear list holding a non-dict element. -/
theorem shoes_resolver_amended (ag : Except Unit Pay) (gm : List (String × String)) :
    (ag = Except.error () → get_shoes_for_activity ag gm = Except.ok ("", ""))
    ∧ (∀ v, ag = Except.ok v → gearItemsOf v = Pay.list [] →
        get_shoes_for_activity ag gm = Except.ok ("", ""))
    ∧ (∀ v xs, ag = Except.ok v → gearItemsOf v = Pay.list xs →
        (∀ x ∈ xs, isDictP x = true) →
        ∃ p, get_shoes_for_activity ag gm = Except.ok p) := by
  refine ⟨fun h => by rw [h]; rfl, fun v hv hitems => ?_, fun v xs hv hitems hdicts => ?_⟩
  · subst hv
    simp [get_shoes_for_activity, hitems, iterItems, shoeLoop, joinComma]
  · subst hv
    obtain ⟨⟨ids, names⟩, hloop⟩ := shoeLoop_ok gm xs ([], []) hdicts
    refine ⟨(joinComma (names.filter (fun n => n != "")), joinComma ids), ?_⟩
    simp only [get_shoes_for_activity, hitems, iterItems]
    rw [hloop]

/-- C5 witness: the amended theorem applied to a throwing upstream call and
to an empty gear payload. -/
theorem shoes_resolver_amended_witness :
    get_shoes_for_activity (Except.error ()) [] = Except.ok ("", "")
    ∧ get_shoes_for_activity (Except.ok (Pay.dict [])) [] = Except.ok ("", "") :=
  ⟨(shoes_resolver_amended (Except.error ()) []).1 rfl,
   (shoes_resolver_amended (Except.ok (Pay.dict [])) []).2.1 (Pay.dict []) rfl rfl⟩

/-- C10: when no fetched activity passes the running filter, the run
returns before connecting to the sheet: nothing is read or appended and
the store is unchanged. -/
theorem no_running_no_sheet (env : Env) (acts : List Activity) (rOk : Bool)
    (store0 : List (List Cell)) (h : acts.filter is_running = []) :
    runSync env acts rOk store0
      = { store := store0, newEntries := 0, sheetAccessed := false } := by
  simp [runSync, h]

/-- C10 witness: a batch holding only a cycling activity leaves the sheet
untouched. -/
theorem no_running_no_sheet_witness :
    ([mkAct (Cell.num 1) "cycling"].filter is_running = [])
    ∧ runSync env0 [mkAct (Cell.num 1) "cycling"] true hdr0
      = { store := hdr0, newEntries := 0, sheetAccessed := false } :=
  ⟨by decide, no_running_no_sheet env0 [mkAct (Cell.num 1) "cycling"] true hdr0 (by decide)⟩

/-- C2: if both upstream gear-resolution calls throw for activity X, X's
row is still appended, with empty shoe name and shoe id fields, and the
batch continues from the post-append state — the per-activity handler
never aborts the run (exceptions inside gear resolution are caught, the
gear call inside `get_shoes_for_activity` and every detail probe inside
`get_activity_detail_for_gear`). -/
theorem gear_failure_isolated (env : Env) (st : SyncState) (X : Activity)
    (rest : List Activity) (n : Int)
    (hid : pyIntC X.activityId = Option.some n)
    (hne : aidStr X ≠ "")
    (hnew : Cell.str (aidStr X) ∉ st.known)
    (hgear : env.gearResp n = Except.error ())
    (hdetail : env.detailResp X.activityId = Except.error ()) :
    bodyE env X = Except.ok (rowFields X "" "")
    ∧ processActivity env st X =
        { store := st.store ++ [rowFields X "" ""], known := st.known ++ [X.activityId],
          newEntries := st.newEntries + 1 }
    ∧ List.foldl (processActivity env) st (X :: rest)
        = List.foldl (processActivity env)
            { store := st.store ++ [rowFields X "" ""], known := st.known ++ [X.activityId],
              newEntries := st.newEntries + 1 } rest := by
  have hbody : bodyE env X = Except.ok (rowFields X "" "") := by
    simp only [bodyE, hid, hgear, hdetail]
    rfl
  have hstep := processActivity_append env st X (rowFields X "" "") hne hnew hbody
  exact ⟨hbody, hstep, by rw [List.foldl_cons, hstep]⟩

/-- C2 witness: the theorem applied to the all-throwing environment `env0`
and the running activity with id 7, starting from a header-only sheet. -/
theorem gear_failure_isolated_witness :
    pyIntC actR.activityId = Option.some 7
    ∧ processActivity env0 { store := hdr0, known := [], newEntries := 0 } actR
      = { store := hdr0 ++ [rowFields actR "" ""], known := [] ++ [actR.activityId],
          newEntries := 0 + 1 } :=
  ⟨rfl, (gear_failure_isolated env0 { store := hdr0, known := [], newEntries := 0 } actR [] 7
    rfl (by decide) (by decide) rfl rfl).2.1⟩

/-- C3 (code-bug evidence): a batch holding the same integer activity id 7
twice appends BOTH rows — `new_entries` is 2 and the id string "7" lands
in column 1 twice — because line 321 inserts the raw id `7` into the
known-id set while the dedup check at line 269 looks up the string `"7"`,
contradicting the code's own comment "avoid duplicates within same run"
and the spec's record contract. -/
theorem within_batch_duplicate_not_rejected :
    (runSync env0 [actR, actR] true hdr0).newEntries = 2
    ∧ col1Strs (runSync env0 [actR, actR] true hdr0).store = ["activity_id", "7", "7"] :=
  ⟨rfl, rfl⟩

/-- C6 counterexample: with the store read failing (`storeReadOk = false`)
on a sheet that already contains id "7", the run does NOT abort — it
appends the id-7 activity again (`new_entries = 1`), duplicating the id.
The failure is caught at src line 255 and processing continues. -/
theorem store_read_failure_still_appends :
    (runSync env0 [actR] false [[Cell.str "activity_id"], [Cell.str "7"]]).newEntries = 1
    ∧ (runSync env0 [actR] false [[Cell.str "activity_id"], [Cell.str "7"]]).store
      = [[Cell.str "activity_id"], [Cell.str "7"], rowFields actR "" ""] :=
  ⟨rfl, rfl⟩

/-- C6 amended: a failure while reading existing rows is not fatal — it is
caught with a warning, the known-id set is left empty, and the run
proceeds to append exactly what it would append against an empty known-id
set (only the activity-list fetch failure aborts the run, src line 214). -/
theorem store_read_failure_continues (env : Env) (acts : List Activity)
    (store0 : List (List Cell)) (hne : acts.filter is_running ≠ []) :
    runSync env acts false store0
      = { store := store0 ++ (foldApp env (acts.filter is_running) []).rows,
          newEntries := (foldApp env (acts.filter is_running) []).count,
          sheetAccessed := true } := by
  have hE : (acts.filter is_running).isEmpty = false := by
    cases h : acts.filter is_running with
    | nil => exact absurd h hne
    | cons x xs => rfl
  simp only [runSync, hE, Bool.false_eq_true, if_false]
  rw [fold_decomp env (acts.filter is_running) store0 [] 0]
  simp

/-- C6 witness: the amended theorem applied to a singleton running batch
with a failed store read. -/
theorem store_read_failure_continues_witness :
    ([actR].filter is_running ≠ [])
    ∧ runSync env0 [actR] false hdr0
      = { store := hdr0 ++ (foldApp env0 ([actR].filter is_running) []).rows,
          newEntries := (foldApp env0 ([actR].filter is_running) []).count,
          sheetAccessed := true } :=
  ⟨by decide, store_read_failure_continues env0 [actR] hdr0 (by decide)⟩

lemma rowFields_length (a : Activity) (sn si : String) :
    (rowFields a sn si).length = 14 := rfl

/-- C9: every row the run appends to the store is the 14-field sequence
`[activity_id, date, name, distance_km, duration_min, avg_pace, avg_hr,
max_hr, calories, avg_cadence, elevation_gain, activity_type, shoe_name,
shoe_id]` built by `rowFields`, in that fixed order. -/
theorem appended_rows_shape (env : Env) (acts : List Activity) (rOk : Bool)
    (store0 : List (List Cell)) (row : List Cell)
    (hrow : row ∈ (runSync env acts rOk store0).store) :
    row ∈ store0 ∨ (row.length = 14 ∧ ∃ a, a ∈ acts.filter is_running ∧
      ∃ sn si : String, row = rowFields a sn si) := by
  simp only [runSync] at hrow
  by_cases hE : (acts.filter is_running).isEmpty = true
  · rw [if_pos hE] at hrow
    exact Or.inl hrow
  · rw [if_neg hE] at hrow
    rw [fold_decomp env (acts.filter is_running) store0
      (if rOk then seedIds (readAll store0) else []) 0] at hrow
    have hrow2 : row ∈ store0 ++ (foldApp env (acts.filter is_running)
        (if rOk then seedIds (readAll store0) else [])).rows := hrow
    rcases List.mem_append.mp hrow2 with h | h
    · exact Or.inl h
    · obtain ⟨a, ha, sn, si, hs⟩ := foldApp_rows_shape env (acts.filter is_running) _ row h
      exact Or.inr ⟨by rw [hs]; rfl, a, ha, sn, si, hs⟩

/-- C9 witness: the theorem applied to the concrete run that appends the
id-7 running activity to a header-only sheet. -/
theorem appended_rows_shape_witness :
    rowFields actR "" "" ∈ (runSync env0 [actR] true hdr0).store
    ∧ (rowFields actR "" "" ∈ hdr0
       ∨ ((rowFields actR "" "").length = 14 ∧ ∃ a, a ∈ [actR].filter is_running ∧
          ∃ sn si : String, rowFields actR "" "" = rowFields a sn si)) := by
  have hm : rowFields actR "" "" ∈ (runSync env0 [actR] true hdr0).store := by
    show rowFields actR "" "" ∈ [[Cell.str "activity_id"], rowFields actR "" ""]
    exact List.mem_cons_of_mem _ (List.mem_singleton_self _)
  exact ⟨hm, appended_rows_shape env0 [actR] true hdr0 (rowFields actR "" "") hm⟩

lemma col1Strs_cons (r : List Cell) (rs : List (List Cell)) (c : Cell)
    (h : r.head? = Option.some c) :
    col1Strs (r :: rs) = cellStr c :: col1Strs rs := by
  simp [col1Strs, List.filterMap_cons, h]

lemma col1_okRows (env : Env) :
    ∀ (l : List Activity),
      (∀ a ∈ l, aidStr a ≠ "" ∧ isOkE (bodyE env a) = true) →
      col1Strs (l.map (okRow env)) = l.map aidStr
  | [], _ => rfl
  | a :: rest, h => by
      obtain ⟨h0, hok⟩ := h a (List.mem_cons_self a rest)
      obtain ⟨sn, si, hsh⟩ := okRow_shape env a hok
      have hhead : (okRow env a).head? = Option.some a.activityId := by rw [hsh]; rfl
      rw [List.map_cons, List.map_cons, col1Strs_cons _ _ _ hhead,
        cellStr_eq_aidStr a h0,
        col1_okRows env rest (fun b hb => h b (List.mem_cons_of_mem a hb))]

/-- C1: running the pipeline twice against the same upstream activities
and the same store — with distinct, nonempty id strings that are genuinely
new to the store, every body succeeding, and a header row present — leaves
each activity id exactly once in column 1, and the second run appends
nothing: its count is 0 and the store is unchanged, because every id
appended by run 1 is read back into the known-id set and skipped. -/
theorem dedup_idempotent (env : Env) (acts : List Activity) (store0 : List (List Cell))
    (h0 : store0 ≠ [])
    (hnd : ((acts.filter is_running).map aidStr).Nodup)
    (hp : ∀ a ∈ acts.filter is_running,
      aidStr a ≠ "" ∧ isOkE (bodyE env a) = true ∧ aidStr a ∉ col1Strs store0) :
    (∀ a ∈ acts.filter is_running,
      (col1Strs (runSync env acts true
        (runSync env acts true store0).store).store).count (aidStr a) = 1)
    ∧ (runSync env acts true (runSync env acts true store0).store).newEntries = 0
    ∧ (runSync env acts true (runSync env acts true store0).store).store
      = (runSync env acts true store0).store := by
  by_cases hE : (acts.filter is_running).isEmpty = true
  · have hnil : acts.filter is_running = [] := by
      cases h : acts.filter is_running with
      | nil => rfl
      | cons x xs => rw [h] at hE; simp [List.isEmpty] at hE
    simp [runSync, hnil]
  · have hne : acts.filter is_running ≠ [] := fun hn => hE (by rw [hn]; rfl)
    have hp1 : ∀ a ∈ acts.filter is_running,
        aidStr a ≠ "" ∧ isOkE (bodyE env a) = true
        ∧ aidStr a ∉ strEntries (seedIds (readAll store0)) :=
      fun a ha => ⟨(hp a ha).1, (hp a ha).2.1,
        fun hm => (hp a ha).2.2 (strEntries_seed_sub store0 hm)⟩
    have hfold1 := fold_append_all env (acts.filter is_running) store0
      (seedIds (readAll store0)) 0 hnd hp1
    have hrun1 : runSync env acts true store0
        = { store := store0 ++ (acts.filter is_running).map (okRow env),
            newEntries := (acts.filter is_running).length, sheetAccessed := true } := by
      have h1 : runSync env acts true store0
          = { store := (List.foldl (processActivity env)
                { store := store0, known := seedIds (readAll store0), newEntries := 0 }
                (acts.filter is_running)).store,
              newEntries := (List.foldl (processActivity env)
                { store := store0, known := seedIds (readAll store0), newEntries := 0 }
                (acts.filter is_running)).newEntries,
              sheetAccessed := true } := by
        simp only [runSync]
        rw [if_neg hE]
        rfl
      rw [h1, hfold1]
      simp
    have hcol1 : col1Strs (store0 ++ (acts.filter is_running).map (okRow env))
        = col1Strs store0 ++ (acts.filter is_running).map aidStr := by
      rw [col1Strs_append,
        col1_okRows env (acts.filter is_running) (fun a ha => ⟨(hp a ha).1, (hp a ha).2.1⟩)]
    obtain ⟨s0h, s0t, hs0⟩ : ∃ h t, store0 = h :: t := by
      cases store0 with
      | nil => exact absurd rfl h0
      | cons h t => exact ⟨h, t, rfl⟩
    have hrows_ne : (acts.filter is_running).map (okRow env) ≠ [] := by
      intro hm
      exact hne (List.map_eq_nil_iff.mp hm)
    have hskip : ∀ a ∈ acts.filter is_running,
        Cell.str (aidStr a)
          ∈ seedIds (readAll (store0 ++ (acts.filter is_running).map (okRow env))) := by
      intro a ha
      obtain ⟨sn, si, hsh⟩ := okRow_shape env a ((hp a ha).2.1)
      have hane : aidStr a ≠ "" := (hp a ha).1
      have hcell : cellStr a.activityId = aidStr a := cellStr_eq_aidStr a hane
      have hlen : 1 < (readAll (store0 ++ (acts.filter is_running).map (okRow env))).length := by
        have hpos : 0 < ((acts.filter is_running).map (okRow env)).length :=
          List.length_pos.mpr hrows_ne
        rw [readAll, List.length_map, List.length_append, hs0]
        simp only [List.length_cons]
        omega
      have hdropmem : okRow env a
          ∈ (store0 ++ (acts.filter is_running).map (okRow env)).drop 1 := by
        rw [hs0, List.cons_append, List.drop_succ_cons, List.drop_zero]
        exact List.mem_append_right s0t (List.mem_map_of_mem (okRow env) ha)
      have hmem : (okRow env a).map (fun c => Cell.str (cellStr c))
          ∈ (readAll (store0 ++ (acts.filter is_running).map (okRow env))).drop 1 := by
        rw [readAll, ← List.map_drop]
        exact List.mem_map_of_mem _ hdropmem
      have hhead : ((okRow env a).map (fun c => Cell.str (cellStr c))).head?
          = Option.some (Cell.str (aidStr a)) := by
        rw [hsh]
        show Option.some (Cell.str (cellStr a.activityId)) = Option.some (Cell.str (aidStr a))
        rw [hcell]
      have ht : truthyC (Cell.str (aidStr a)) = true := by
        simp [truthyC, bne_iff_ne, hane]
      exact mem_seedIds_intro hlen hmem hhead ht
    have hrun2 : runSync env acts true (store0 ++ (acts.filter is_running).map (okRow env))
        = { store := store0 ++ (acts.filter is_running).map (okRow env),
            newEntries := 0, sheetAccessed := true } := by
      have h1 : runSync env acts true (store0 ++ (acts.filter is_running).map (okRow env))
          = { store := (List.foldl (processActivity env)
                { store := store0 ++ (acts.filter is_running).map (okRow env),
                  known := seedIds (readAll
                    (store0 ++ (acts.filter is_running).map (okRow env))),
                  newEntries := 0 } (acts.filter is_running)).store,
              newEntries := (List.foldl (processActivity env)
                { store := store0 ++ (acts.filter is_running).map (okRow env),
                  known := seedIds (readAll
                    (store0 ++ (acts.filter is_running).map (okRow env))),
                  newEntries := 0 } (acts.filter is_running)).newEntries,
              sheetAccessed := true } := by
        simp only [runSync]
        rw [if_neg hE]
        rfl
      rw [h1, fold_skip env (acts.filter is_running) _
        (fun a ha => Or.inr (hskip a ha))]
    refine ⟨?_, ?_, ?_⟩
    · intro a ha
      simp only [hrun1, hrun2]
      rw [hcol1, List.count_append,
        List.count_eq_zero.mpr (hp a ha).2.2,
        List.count_eq_one_of_mem hnd (List.mem_map_of_mem aidStr ha)]
    · simp only [hrun1, hrun2]
    · simp only [hrun1, hrun2]

/-- C1 witness: the theorem applied to a single run of the id-7 activity
against a header-only sheet (hypotheses discharged by evaluation). -/
theorem dedup_idempotent_witness :
    hdr0 ≠ []
    ∧ (runSync env0 [actR] true (runSync env0 [actR] true hdr0).store).newEntries = 0 :=
  ⟨by decide, (dedup_idempotent env0 [actR] hdr0 (by decide) (by decide) (by decide)).2.1⟩
